import Mathlib

/-!
Verification development for the Asterisk AMI event logger
(`src/main.rs`, `src/settings.rs`).

The program reads AMI frames from TCP streams, forwards frames carrying an
`Event` header over an mpsc channel to a single aggregator, which executes
configured database-insert rules and appends a serialized record to a
date-named log file.

Modelling conventions:
* Rust `HashMap<String, String>` is embedded as an association list
  `List (String × String)` together with `hinsert` (insert replaces the
  value of an existing key, as `HashMap::insert` does) and `hget`
  (`HashMap::get`).  The order of an association list stands for the hash
  map's iteration order, which for Rust's `std::collections::HashMap` is
  unspecified and in general differs from insertion order.
* A TCP stream is embedded as the list of lines `BufReader::read_line`
  would deliver (`splitLines` cuts a byte/char sequence after every
  newline; a trailing chunk without a newline is delivered last, and the
  exhausted stream corresponds to the empty list, i.e. a zero-byte read).
* `mysql::Value` is embedded as `Option String` (`none` is the SQL NULL
  that `mysql::Value::from(None::<String>)` produces).
* Side-effecting calls whose outcome the surrounding code branches on
  (`conn.exec`, `Pool::new`) are abstracted by boolean oracles passed as
  arguments, so that every control path of the source is representable.
-/

/-- Association-list model of `HashMap::insert`: replaces the value stored
at an existing key (keeping its position, as a hash map's bucket does),
otherwise appends the new binding. -/
def hinsert : List (String × String) → String → String → List (String × String)
  | [], k, v => [(k, v)]
  | (k', v') :: t, k, v =>
    if k' = k then (k, v) :: t else (k', v') :: hinsert t k v

/-- Association-list model of `HashMap::get`. -/
def hget : List (String × String) → String → Option String
  | [], _ => none
  | (k', v) :: t, k => if k' = k then some v else hget t k

/-- Association-list model of `HashMap::contains_key`. -/
def hcontains (h : List (String × String)) (k : String) : Bool :=
  (hget h k).isSome

/-- Embedding of Rust `str::trim` (`main.rs` lines 45-46): drop whitespace
characters from both ends.  `Char.isWhitespace` agrees with Rust's
`char::is_whitespace` on all ASCII input, which is all the AMI protocol
carries. -/
def strTrim (s : String) : String :=
  ⟨((s.data.dropWhile Char.isWhitespace).reverse.dropWhile Char.isWhitespace).reverse⟩

/-- Embedding of Rust `str::contains(":")` (`main.rs` line 40). -/
def containsColon (s : String) : Bool :=
  s.data.any (fun c => c = ':')

/-- Helper for `splitFirstColon`: walk the characters, accumulating the
part before the first colon. -/
def splitFirstColonAux : List Char → List Char → List Char × List Char
  | [], acc => (acc.reverse, [])
  | c :: cs, acc =>
    if c = ':' then (acc.reverse, cs) else splitFirstColonAux cs (c :: acc)

/-- Embedding of `line.splitn(2, ":")` (`main.rs` line 41): the part of the
line before the first colon and the part after it.  (When the line has no
colon the whole line is returned as the first component; the source only
calls this under the `contains(":")` guard.) -/
def splitFirstColon (s : String) : String × String :=
  let p := splitFirstColonAux s.data []
  (⟨p.1⟩, ⟨p.2⟩)

/-- Embedding of the `AMIResponse` struct (`main.rs` lines 70-74). -/
structure AMIResponse where
  headers : List (String × String)
  rest : String
deriving DecidableEq

/-- Embedding of the per-line processing of `read_ami`
(`main.rs` lines 39-52): a colon line is split at its first colon, both
parts are trimmed and stored as a header (overwriting an earlier binding of
the same name); any other line is appended raw to `rest`. -/
def processLine (acc : AMIResponse) (line : String) : AMIResponse :=
  if containsColon line then
    { acc with
      headers :=
        hinsert acc.headers (strTrim (splitFirstColon line).1)
          (strTrim (splitFirstColon line).2) }
  else
    { acc with rest := acc.rest ++ line }

/-- Embedding of the read loop of `read_ami` (`main.rs` lines 25-65) over
the list of lines the buffered reader delivers: stop at end of stream
(zero-byte read) or at a line that is exactly the terminator; otherwise
process the line, and stop after one processed line when `first` is set. -/
def readLoop (first : Bool) : List String → AMIResponse → AMIResponse
  | [], acc => acc
  | line :: ls, acc =>
    if line = "\r\n" then acc
    else
      let acc' := processLine acc line
      if first then acc' else readLoop first ls acc'

/-- Embedding of `read_ami` (`main.rs` lines 16-67). -/
def read_ami (lines : List String) (first : Bool) : AMIResponse :=
  readLoop first lines { headers := [], rest := "" }

/-- Helper for `splitLines`: cut the character stream after every newline,
accumulating the current line in reverse. -/
def splitLinesAux : List Char → List Char → List String
  | [], acc => if acc.isEmpty then [] else [⟨acc.reverse⟩]
  | c :: cs, acc =>
    if c = '\n' then (⟨(c :: acc).reverse⟩ : String) :: splitLinesAux cs []
    else splitLinesAux cs (c :: acc)

/-- The lines `BufReader::read_line` delivers for a byte sequence: each
line keeps its terminating newline; a final chunk without a newline is
delivered as the last line. -/
def splitLines (bytes : List Char) : List String :=
  splitLinesAux bytes []

/-- Spec-side: the lines of the stream strictly before the first
blank-terminator line. -/
def linesBeforeTerminator : List String → List String
  | [] => []
  | l :: ls => if l = "\r\n" then [] else l :: linesBeforeTerminator ls

/-- Spec-side: how many lines of the stream are exactly the
blank-terminator line. -/
def countTerminators : List String → Nat
  | [] => 0
  | l :: ls => (if l = "\r\n" then 1 else 0) + countTerminators ls

/-- Spec-side header accumulation step, following the spec's words: a
colon-containing line is split on its first colon, both parts trimmed, and
stored (a later occurrence of the same name overwrites an earlier one);
other lines leave the headers unchanged. -/
def specHeaderStep (h : List (String × String)) (line : String) :
    List (String × String) :=
  if containsColon line then
    hinsert h (strTrim (splitFirstColon line).1) (strTrim (splitFirstColon line).2)
  else h

/-- Spec-side headers of a list of lines, starting from given headers. -/
def specHeadersFrom (h : List (String × String)) : List String → List (String × String)
  | [] => h
  | l :: ls => specHeadersFrom (specHeaderStep h l) ls

/-- Spec-side headers of a list of lines. -/
def specHeaders (ls : List String) : List (String × String) :=
  specHeadersFrom [] ls

/-- Spec-side body: the in-order concatenation of every non-colon line
(terminator character included in each line). -/
def specBody : List String → String
  | [] => ""
  | l :: ls => if containsColon l then specBody ls else l ++ specBody ls

set_option maxRecDepth 8192

/-- Embedding of the body of the streaming loop of `listener`
(`main.rs` lines 115-128): the frame is sent on the channel as a
`(server name, frame)` pair exactly when it has at least one header and
contains an `Event` header; the result is the list of sends this frame
causes. -/
def listenerStep (serverName : String) (r : AMIResponse) :
    List (String × AMIResponse) :=
  if r.headers.length > 0 then
    if hcontains r.headers "Event" then [(serverName, r)] else []
  else []

/-- The sends the streaming loop performs over a list of incoming
frames, in order. -/
def streamSends (serverName : String) : List AMIResponse → List (String × AMIResponse)
  | [] => []
  | r :: rs => listenerStep serverName r ++ streamSends serverName rs

/-- Session states of §4.2 of the specification. -/
inductive SessionState
  | Terminated
  | Streaming
deriving DecidableEq

/-- Outcome of the greeting/login sequence of `listener`
(`main.rs` lines 87-113).  Each failure constructor records the data the
source's diagnostic carries: `bannerMismatch` is the `assert_eq!` panic on
the greeting body (which prints the mismatching value and kills only this
session's thread), `missingResponse` is the `println!` for a login reply
without a `Response` header, and `loginFailed` is the `println!` for a
`Response` header different from "Success". -/
inductive AuthResult
  | bannerMismatch (got : String)
  | missingResponse
  | loginFailed (resp : String)
  | success
deriving DecidableEq

/-- Embedding of the greeting check and login-response check of `listener`
(`main.rs` lines 87-113), as a function of the first frame (read with
`first = true`) and the login-response frame. -/
def authOutcome (first login : AMIResponse) : AuthResult :=
  if first.rest = "Asterisk Call Manager/1.1\r\n" then
    match hget login.headers "Response" with
    | some resp =>
      if resp = "Success" then AuthResult.success else AuthResult.loginFailed resp
    | none => AuthResult.missingResponse
  else AuthResult.bannerMismatch first.rest

/-- Embedding of one whole `listener` session (`main.rs` lines 77-129) as
a function of the frames the connection delivers: the final session state
together with every `(server name, frame)` pair sent onto the channel.
Any non-success authentication outcome returns before the streaming loop,
so nothing is ever sent. -/
def listenerRun (serverName : String) (first login : AMIResponse)
    (frames : List AMIResponse) : SessionState × List (String × AMIResponse) :=
  match authOutcome first login with
  | AuthResult.success => (SessionState.Streaming, streamSends serverName frames)
  | _ => (SessionState.Terminated, [])

/-- Embedding of the `EventClause` struct (`settings.rs` lines 123-129).
`event_data_link` is a Rust `HashMap<String, String>`; the list holds its
entries in the map's iteration order, which `std::collections::HashMap`
leaves unspecified (it is not the declaration order of the
configuration file). -/
structure EventClause where
  event_name : String
  db_connection_id : String
  db_table : String
  event_data_link : List (String × String)
deriving DecidableEq

/-- Embedding of the per-field value resolution of the rule loop
(`main.rs` lines 272-287): if the event key is present as a header its
value is pushed; otherwise the literal key "%SERVER_NAME%" pushes the
server name and any other absent key pushes the SQL NULL
(`mysql::Value::from(None::<String>)`, modelled as `none`). -/
def resolveValue (serverName : String) (headers : List (String × String))
    (event_key : String) : Option String :=
  if hcontains headers event_key then hget headers event_key
  else if event_key = "%SERVER_NAME%" then some serverName
  else none

/-- Embedding of the column/value accumulation loop (`main.rs` lines
269-290): for each `(event_key, mysql_column)` entry of the mapping, in
iteration order, push the resolved value and the column name in
lockstep. -/
def buildColumnsValues (serverName : String) (headers : List (String × String)) :
    List (String × String) → List String × List (Option String)
  | [] => ([], [])
  | (event_key, mysql_column) :: restLink =>
    let v := resolveValue serverName headers event_key
    let p := buildColumnsValues serverName headers restLink
    (mysql_column :: p.1, v :: p.2)

/-- Embedding of the SQL statement assembly (`main.rs` lines 293-300):
`INSERT INTO <table> (<columns joined by commas>) VALUES (<one "?" per
column, joined by commas>)`. -/
def mkSql (table : String) (columns : List String) : String :=
  "INSERT INTO " ++ table ++ " (" ++ String.intercalate "," columns ++
    ") VALUES (" ++ String.intercalate "," (List.replicate columns.length "?") ++ ")"

/-- Embedding of the per-rule step of the aggregator loop (`main.rs` lines
261-301): when the clause's event name equals the message's `Event`
header, produce the SQL text and the bound parameter list.  The source
unwraps the `Event` lookup (`headers.get("Event").unwrap()`, a panic when
the header is absent); the `none` branch marks that lookup failing, and
the theorem for claim C10 shows it is unreachable for frames delivered
through the channel. -/
def processClause (serverName : String) (r : AMIResponse) (c : EventClause) :
    Option (String × List (Option String)) :=
  match hget r.headers "Event" with
  | none => none
  | some ev =>
    if c.event_name = ev then
      let p := buildColumnsValues serverName r.headers c.event_data_link
      some (mkSql c.db_table p.1, p.2)
    else none

/-- Embedding of the full rule loop (`main.rs` lines 261-315) with the
outcome of `conn.exec` abstracted by the oracle `execOk`: each matching
clause produces one execution attempt `(sql, params)`; a failed execution
additionally produces an error log carrying the clause's database id and
table name and then `continue`s to the next clause.  Returns the attempts
and the error logs, both in clause order. -/
def runClauses (execOk : String → List (Option String) → Bool)
    (serverName : String) (r : AMIResponse) :
    List EventClause → List (String × List (Option String)) × List (String × String)
  | [] => ([], [])
  | c :: cs =>
    let restRun := runClauses execOk serverName r cs
    match processClause serverName r c with
    | none => restRun
    | some sv =>
      if execOk sv.1 sv.2 then (sv :: restRun.1, restRun.2)
      else (sv :: restRun.1, (c.db_connection_id, c.db_table) :: restRun.2)

/-- Hex digit character, lowercase, as serde_json's escape table uses. -/
def hexDigit (n : Nat) : Char :=
  if n < 10 then Char.ofNat (48 + n) else Char.ofNat (87 + n)

/-- Embedding of serde_json's string-character escaping: quote, backslash
and the named control characters get two-character escapes, any other
control character below 0x20 gets a `\u00XX` escape, and every other
character is emitted unchanged. -/
def escapeJsonChar (c : Char) : List Char :=
  if c = '\"' then ['\\', '\"']
  else if c = '\\' then ['\\', '\\']
  else if c = '\n' then ['\\', 'n']
  else if c = '\r' then ['\\', 'r']
  else if c = '\t' then ['\\', 't']
  else if c = '\x08' then ['\\', 'b']
  else if c = '\x0c' then ['\\', 'f']
  else if c.toNat < 32 then
    ['\\', 'u', '0', '0', hexDigit (c.toNat / 16), hexDigit (c.toNat % 16)]
  else [c]

/-- A JSON string literal: escaped content between double quotes. -/
def jsonString (s : String) : String :=
  ⟨'\"' :: (s.data.flatMap escapeJsonChar ++ ['\"'])⟩

/-- Embedding of `serde_json::to_string(&ami_response)` for the derived
`Serialize` of `AMIResponse`: an object with a "headers" map (entries in
the hash map's iteration order) and a "rest" string. -/
def jsonOfResponse (r : AMIResponse) : String :=
  "\x7b\x22headers\x22:\x7b" ++
    String.intercalate ","
      (r.headers.map (fun p => jsonString p.1 ++ ":" ++ jsonString p.2)) ++
    "\x7d,\x22rest\x22:" ++ jsonString r.rest ++ "\x7d"

/-- Embedding of the record formatting of the aggregator (`main.rs` lines
347-353): `<server name>::<epoch milliseconds>::<json>` followed by the
protocol line terminator. -/
def logMsg (serverName : String) (millis : Int) (r : AMIResponse) : String :=
  serverName ++ "::" ++ toString millis ++ "::" ++ jsonOfResponse r ++ "\r\n"

/-- Embedding of chrono's `Display` for `Date<Utc>` (the external date
library the source calls): the ISO naive date (YYYY-MM-DD) followed by the
displayed offset, which for the `Utc` timezone is the string "UTC" — e.g.
`2018-01-26UTC` in chrono's own documentation.  The argument is the naive
current UTC date already rendered as YYYY-MM-DD. -/
def dateUtcDisplay (naiveDate : String) : String :=
  naiveDate ++ "UTC"

/-- Embedding of `get_current_file_name` (`main.rs` lines 131-138):
`format!("events_{}.log", Utc::now().date())`, as a function of the
current naive UTC date rendered as YYYY-MM-DD.  The comment in the source
states the name will be "events_YYYY-MM-DD.log", but the `Display` of
`Date<Utc>` appends the "UTC" offset suffix. -/
def get_current_file_name (naiveDate : String) : String :=
  "events_" ++ dateUtcDisplay naiveDate ++ ".log"

/-- Embedding of the log-file path selection (`main.rs` lines 232-243 and
317-343): with per-server directories the file lives under
`<target>/<server name>/`, otherwise directly under `<target>/`. -/
def logFilePath (targetDirectory : String) (directoryPerServer : Bool)
    (serverName : String) (naiveDate : String) : String :=
  if directoryPerServer then
    targetDirectory ++ "/" ++ serverName ++ "/" ++ get_current_file_name naiveDate
  else
    targetDirectory ++ "/" ++ get_current_file_name naiveDate

/-- Embedding of one iteration of the aggregator's receive loop
(`main.rs` lines 250-357) for a received `(server name, frame)` pair: run
every clause (with `conn.exec` outcomes given by the oracle), then build
the record that is appended to the log file.  The rule loop has no exit
path other than finishing the clause list (`continue` on failure), so the
record is produced whatever the oracle says. -/
def aggregateStep (execOk : String → List (Option String) → Bool)
    (clauses : List EventClause) (serverName : String) (r : AMIResponse)
    (millis : Int) :
    List (String × List (Option String)) × List (String × String) × String :=
  let run := runClauses execOk serverName r clauses
  (run.1, run.2, logMsg serverName millis r)

/-- Embedding of the `DatabaseConnection` struct (`settings.rs` lines
133-141). -/
structure DatabaseConnection where
  id : String
  host : String
  port : Int
  user : String
  password : String
  database : String
deriving DecidableEq

/-- Embedding of the database-pool setup loop (`main.rs` lines 197-229)
with the outcome of `Opts::from_url`/`Pool::new` abstracted by the oracle
`connectOk` (a failed connection is logged and skipped with `continue`).
The accumulated map is keyed as the source keys it: the duplicate check
asks whether `database.host` is already a key, while insertion stores the
pool under `database.id` (the pool value is modelled by the host it points
at).  `none` models the `return` that stops startup before the event
loop. -/
def setupPools (connectOk : DatabaseConnection → Bool) :
    List DatabaseConnection → List (String × String) →
    Option (List (String × String))
  | [], pools => some pools
  | db :: dbs, pools =>
    if hcontains pools db.host then none
    else if connectOk db then setupPools connectOk dbs (hinsert pools db.id db.host)
    else setupPools connectOk dbs pools

/-- The `Event: Dial, Channel: SIP/100` message of the specification's
end-to-end scenarios. -/
def dialMsg : AMIResponse :=
  { headers := [("Event", "Dial"), ("Channel", "SIP/100")], rest := "" }

/-- Two configured databases sharing the id "dup" but differing in host. -/
def dbDup1 : DatabaseConnection :=
  { id := "dup", host := "h1", port := 3306, user := "u", password := "p", database := "d" }

/-- Second database with the duplicate id "dup". -/
def dbDup2 : DatabaseConnection :=
  { id := "dup", host := "h2", port := 3306, user := "u", password := "p", database := "d" }

theorem strAppend_assoc (a b c : String) : a ++ b ++ c = a ++ (b ++ c) :=
  String.append_assoc a b c

theorem strAppend_empty (a : String) : a ++ "" = a :=
  String.append_empty a

theorem readLoop_false_eq (ls : List String) : ∀ acc : AMIResponse,
    readLoop false ls acc =
      { headers := specHeadersFrom acc.headers (linesBeforeTerminator ls),
        rest := acc.rest ++ specBody (linesBeforeTerminator ls) } := by
  induction ls with
  | nil =>
    intro acc
    show acc = _
    rw [linesBeforeTerminator]
    rw [show specHeadersFrom acc.headers [] = acc.headers from rfl]
    rw [show specBody [] = "" from rfl, strAppend_empty]
  | cons l ls ih =>
    intro acc
    by_cases hterm : l = "\r\n"
    · simp [readLoop, linesBeforeTerminator, hterm, specHeadersFrom, specBody]
    · have hstep : readLoop false (l :: ls) acc = readLoop false ls (processLine acc l) := by
        simp [readLoop, hterm]
      rw [hstep, ih]
      by_cases hc : containsColon l
      · simp [linesBeforeTerminator, hterm, specHeadersFrom, specHeaderStep,
          specBody, hc, processLine]
      · simp [linesBeforeTerminator, hterm, specHeadersFrom, specHeaderStep,
          specBody, hc, processLine, strAppend_assoc]

/-- Claim C2: for every byte sequence with exactly one blank-terminator
line, `read_ami` with `first = false` returns headers equal to the
colon-split, trimmed key/value pairs of every colon-containing line before
the terminator (later occurrences overwriting earlier ones) and a body
equal to the in-order concatenation of every non-colon line before the
terminator; the terminator line itself contributes to neither. -/
theorem c2_framer_headers_body (bytes : List Char)
    (h : countTerminators (splitLines bytes) = 1) :
    (read_ami (splitLines bytes) false).headers =
      specHeaders (linesBeforeTerminator (splitLines bytes)) ∧
    (read_ami (splitLines bytes) false).rest =
      specBody (linesBeforeTerminator (splitLines bytes)) := by
  rw [read_ami, readLoop_false_eq]
  exact ⟨rfl, by simp⟩

/-- Witness for C2 at the concrete stream
"Event: Dial\r\nChannel: SIP/100\r\nraw body\r\n\r\nAfter: ignored\r\n". -/
theorem c2_framer_witness :
    countTerminators (splitLines ("Event: Dial\r\nChannel: SIP/100\r\nraw body\r\n\r\nAfter: ignored\r\n".data)) = 1 ∧
    (read_ami (splitLines ("Event: Dial\r\nChannel: SIP/100\r\nraw body\r\n\r\nAfter: ignored\r\n".data)) false).headers =
      [("Event", "Dial"), ("Channel", "SIP/100")] ∧
    (read_ami (splitLines ("Event: Dial\r\nChannel: SIP/100\r\nraw body\r\n\r\nAfter: ignored\r\n".data)) false).rest =
      "raw body\r\n" := by
  have h1 : countTerminators (splitLines ("Event: Dial\r\nChannel: SIP/100\r\nraw body\r\n\r\nAfter: ignored\r\n".data)) = 1 := by decide
  have h2 := c2_framer_headers_body ("Event: Dial\r\nChannel: SIP/100\r\nraw body\r\n\r\nAfter: ignored\r\n".data) h1
  refine ⟨h1, ?_, ?_⟩
  · rw [h2.1]; decide
  · rw [h2.2]; decide

theorem hcontains_pos (h : List (String × String)) (k : String)
    (hc : hcontains h k = true) : 0 < h.length := by
  cases h with
  | nil => simp [hcontains, hget] at hc
  | cons a t => simp

theorem buildColumnsValues_eq (serverName : String) (headers : List (String × String)) :
    ∀ link : List (String × String),
      buildColumnsValues serverName headers link =
        (link.map Prod.snd, link.map (fun p => resolveValue serverName headers p.1)) := by
  intro link
  induction link with
  | nil => rfl
  | cons a t ih => cases a; simp [buildColumnsValues, ih]

theorem runClauses_fst (execOk : String → List (Option String) → Bool)
    (serverName : String) (r : AMIResponse) (cs : List EventClause) :
    (runClauses execOk serverName r cs).1 =
      cs.filterMap (fun c => processClause serverName r c) := by
  induction cs with
  | nil => rfl
  | cons c cs ih =>
    unfold runClauses
    cases hc : processClause serverName r c with
    | none => simp [List.filterMap_cons, hc, ih]
    | some sv =>
      by_cases he : execOk sv.1 sv.2 = true <;>
        simp [List.filterMap_cons, hc, ih, he]

theorem runClauses_errs (execOk : String → List (Option String) → Bool)
    (serverName : String) (r : AMIResponse) (cs : List EventClause)
    (c : EventClause) (hc : c ∈ cs) (sql : String) (vals : List (Option String))
    (hp : processClause serverName r c = some (sql, vals))
    (hf : execOk sql vals = false) :
    (c.db_connection_id, c.db_table) ∈ (runClauses execOk serverName r cs).2 := by
  induction cs with
  | nil => cases hc
  | cons c' cs ih =>
    rcases List.mem_cons.mp hc with h | h
    · subst h
      unfold runClauses
      rw [hp]
      simp [hf]
    · unfold runClauses
      cases hpc : processClause serverName r c' with
      | none => exact ih h
      | some sv =>
        by_cases he : execOk sv.1 sv.2 = true <;> simp [he] <;>
          first
            | exact ih h
            | exact Or.inr (ih h)

theorem mem_streamSends (serverName : String) (p : String × AMIResponse) :
    ∀ rs : List AMIResponse, p ∈ streamSends serverName rs →
      hcontains p.2.headers "Event" = true := by
  intro rs
  induction rs with
  | nil => intro hp; cases hp
  | cons r rs ih =>
    intro hp
    rcases List.mem_append.mp hp with h | h
    · unfold listenerStep at h
      by_cases h2 : hcontains r.headers "Event" = true
      · by_cases h1 : 0 < r.headers.length
        · simp [h1, h2] at h
          rw [h]
          exact h2
        · simp [h1] at h
      · simp [h2, ite_self] at h
    · exact ih h

/-- Claim C1 (amended): when a clause's event name matches the message's
`Event` header, the generated statement is
`INSERT INTO <table> (<columns>) VALUES (<placeholders>)` where the column
list appears in the mapping hash map's iteration order, there is exactly
one "?" placeholder per mapped destination column, and the i-th bound
parameter is the resolved value for the i-th listed column.  The claim's
"declared mapping order" does not hold: the source iterates a Rust
`HashMap`, whose iteration order is unspecified and in general differs
from the declaration order (see the counterexample theorem). -/
theorem c1_insert_statement_amended (serverName table connId evName : String)
    (r : AMIResponse) (link : List (String × String))
    (hev : hget r.headers "Event" = some evName) :
    processClause serverName r ⟨evName, connId, table, link⟩ =
      some ("INSERT INTO " ++ table ++ " (" ++
              String.intercalate "," (link.map Prod.snd) ++ ") VALUES (" ++
              String.intercalate "," (List.replicate link.length "?") ++ ")",
            link.map (fun p => resolveValue serverName r.headers p.1)) ∧
    (link.map (fun p => resolveValue serverName r.headers p.1)).length =
      link.length := by
  constructor
  · simp only [processClause, hev, eq_self_iff_true, if_true,
      buildColumnsValues_eq serverName r.headers link, mkSql]
    rw [List.length_map]
  · rw [List.length_map]

/-- Witness for C1 at the specification's scenario 2 input, with the hash
map iterating its two entries in declaration order. -/
theorem c1_insert_statement_witness :
    processClause "serverA" dialMsg
        ⟨"Dial", "db1", "calls",
          [("%SERVER_NAME%", "server_col"), ("Channel", "chan_col")]⟩ =
      some ("INSERT INTO calls (server_col,chan_col) VALUES (?,?)",
            [some "serverA", some "SIP/100"]) := by
  have h := (c1_insert_statement_amended "serverA" "calls" "db1" "Dial" dialMsg
      [("%SERVER_NAME%", "server_col"), ("Channel", "chan_col")] (by decide)).1
  rw [h]
  decide

/-- Counterexample for C1 as stated: the same rule's hash map may iterate
its two entries in the opposite order, in which case the generated
statement is `INSERT INTO calls (chan_col,server_col) VALUES (?,?)` with
parameters ("SIP/100", "serverA"), not the statement the claim fixes. -/
theorem c1_declared_order_counterexample :
    processClause "serverA" dialMsg
        ⟨"Dial", "db1", "calls",
          [("Channel", "chan_col"), ("%SERVER_NAME%", "server_col")]⟩ =
      some ("INSERT INTO calls (chan_col,server_col) VALUES (?,?)",
            [some "SIP/100", some "serverA"]) ∧
    ("INSERT INTO calls (chan_col,server_col) VALUES (?,?)" : String) ≠
      "INSERT INTO calls (server_col,chan_col) VALUES (?,?)" :=
  ⟨by decide, by decide⟩

/-- Claim C3: a frame of the streaming loop is forwarded onto the channel
if and only if it has at least one header and contains an `Event` header;
a frame lacking `Event` sends nothing, and a frame with `Event` sends
exactly the one pair (server name, frame). -/
theorem c3_forwarding_iff_event (serverName : String) (r : AMIResponse) :
    (listenerStep serverName r ≠ [] ↔
      0 < r.headers.length ∧ hcontains r.headers "Event" = true) ∧
    (hcontains r.headers "Event" = false → listenerStep serverName r = []) ∧
    (hcontains r.headers "Event" = true →
      listenerStep serverName r = [(serverName, r)]) := by
  refine ⟨⟨?_, ?_⟩, ?_, ?_⟩
  · intro hne
    by_cases h1 : 0 < r.headers.length
    · by_cases h2 : hcontains r.headers "Event" = true
      · exact ⟨h1, h2⟩
      · exact absurd (by simp [listenerStep, h1, h2]) hne
    · exact absurd (by simp [listenerStep, h1]) hne
  · rintro ⟨h1, h2⟩
    simp [listenerStep, h1, h2]
  · intro h2
    by_cases h1 : 0 < r.headers.length <;> simp [listenerStep, h1, h2]
  · intro h2
    have h1 : 0 < r.headers.length := hcontains_pos r.headers "Event" h2
    simp [listenerStep, h1, h2]

/-- Witness for C3 at the scenario event frame. -/
theorem c3_forwarding_witness :
    listenerStep "serverA" dialMsg = [("serverA", dialMsg)] :=
  (c3_forwarding_iff_event "serverA" dialMsg).2.2 (by decide)

/-- Claim C4 (amended): when resolving a mapped source field, the header
lookup takes precedence: a field present as a header always binds that
header's (already trimmed) value — even for the literal field name
"%SERVER_NAME%" — and only a field absent from the headers resolves the
reserved token to the source identity, any other absent field binding a
null.  The claim's precedence (reserved token checked first) does not hold
on the code: see the counterexample theorem. -/
theorem c4_reserved_token_amended (serverName : String)
    (headers : List (String × String)) (k v : String) :
    (hget headers k = some v → resolveValue serverName headers k = some v) ∧
    (hget headers "%SERVER_NAME%" = none →
      resolveValue serverName headers "%SERVER_NAME%" = some serverName) ∧
    (hget headers k = none → k ≠ "%SERVER_NAME%" →
      resolveValue serverName headers k = none) := by
  refine ⟨?_, ?_, ?_⟩
  · intro h
    simp [resolveValue, hcontains, h]
  · intro h
    simp [resolveValue, hcontains, h]
  · intro h hk
    simp [resolveValue, hcontains, h, hk]

/-- Witness for C4 (amended) at a message without a "%SERVER_NAME%"
header: the reserved token resolves to the source identity. -/
theorem c4_reserved_token_witness :
    resolveValue "serverA" [("Channel", "SIP/100")] "%SERVER_NAME%" =
      some "serverA" :=
  (c4_reserved_token_amended "serverA" [("Channel", "SIP/100")]
    "%SERVER_NAME%" "x").2.1 (by decide)

/-- Counterexample for C4 as stated: when a header literally named
"%SERVER_NAME%" exists in the message, the code binds that header's value,
not the source identity — the header-presence check runs first. -/
theorem c4_reserved_token_counterexample :
    resolveValue "serverA" [("%SERVER_NAME%", "spoofed"), ("Event", "Dial")]
        "%SERVER_NAME%" = some "spoofed" ∧
    (some "spoofed" : Option String) ≠ some "serverA" :=
  ⟨by decide, by decide⟩

/-- Claim C5: every mapped source field that is neither a present header
nor the reserved token binds a SQL null: the column list is exactly the
mapped columns in order, both the column list and the value list have the
mapping's size whatever the message's headers are (no column is ever
omitted and value resolution is a total function, so no error is
raised), and the i-th value is null whenever the i-th source field is
absent and not the reserved token. -/
theorem c5_missing_header_null (serverName : String)
    (headers : List (String × String)) (link : List (String × String)) :
    (buildColumnsValues serverName headers link).1 = link.map Prod.snd ∧
    (buildColumnsValues serverName headers link).1.length = link.length ∧
    (buildColumnsValues serverName headers link).2.length = link.length ∧
    ∀ i k col, link.get? i = some (k, col) → hget headers k = none →
      k ≠ "%SERVER_NAME%" →
      (buildColumnsValues serverName headers link).2.get? i = some none := by
  have hb := buildColumnsValues_eq serverName headers link
  refine ⟨by rw [hb], by rw [hb]; simp, by rw [hb]; simp, ?_⟩
  intro i k col hik hmiss hres
  rw [hb, List.get?_map, hik]
  simp [resolveValue, hcontains, hmiss, hres]

/-- Witness for C5 at a mapping whose only source field is missing from
the message. -/
theorem c5_missing_header_witness :
    (buildColumnsValues "serverA" [("Event", "Dial")]
      [("Missing", "col1")]).2.get? 0 = some none :=
  (c5_missing_header_null "serverA" [("Event", "Dial")]
    [("Missing", "col1")]).2.2.2 0 "Missing" "col1" (by decide) (by decide)
    (by decide)

/-- Claim C6: rule executions for one event are mutually independent: the
list of attempted insert executions equals one `(sql, params)` entry per
matching clause, in clause order, and does not depend on the execution
oracle at all (so a failure in one rule never suppresses another); a
failing execution contributes an error log carrying the clause's database
id and table name; and the log record for the event is produced whatever
the oracle says. -/
theorem c6_rule_independence (execOk : String → List (Option String) → Bool)
    (clauses : List EventClause) (serverName : String) (r : AMIResponse)
    (millis : Int) :
    (aggregateStep execOk clauses serverName r millis).1 =
      clauses.filterMap (fun c => processClause serverName r c) ∧
    (∀ c ∈ clauses, ∀ sql vals,
      processClause serverName r c = some (sql, vals) →
      execOk sql vals = false →
      (c.db_connection_id, c.db_table) ∈
        (aggregateStep execOk clauses serverName r millis).2.1) ∧
    (aggregateStep execOk clauses serverName r millis).2.2 =
      logMsg serverName millis r := by
  refine ⟨runClauses_fst execOk serverName r clauses, ?_, rfl⟩
  intro c hc sql vals hp hf
  exact runClauses_errs execOk serverName r clauses c hc sql vals hp hf

/-- Witness for C6: with an oracle that fails every execution, the single
matching clause's database id and table name appear in the error logs. -/
theorem c6_rule_independence_witness :
    ("db1", "calls") ∈
      (aggregateStep (fun _ _ => false)
        [⟨"Dial", "db1", "calls", [("Channel", "chan_col")]⟩]
        "serverA" dialMsg 0).2.1 :=
  (c6_rule_independence (fun _ _ => false)
      [⟨"Dial", "db1", "calls", [("Channel", "chan_col")]⟩]
      "serverA" dialMsg 0).2.1
    ⟨"Dial", "db1", "calls", [("Channel", "chan_col")]⟩ (by simp)
    "INSERT INTO calls (chan_col) VALUES (?)" [some "SIP/100"] (by decide) rfl

/-- Claim C7: for every authentication outcome other than success — wrong
greeting banner, login response missing the `Response` header, or a
`Response` value different from "Success" — the session ends Terminated
and forwards nothing onto the channel.  (The wrong-banner case terminates
through the `assert_eq!` panic, whose message names the mismatching
banner and which unwinds only this session's thread; the other two cases
print a diagnostic naming the server and return.) -/
theorem c7_auth_failure_terminates (serverName : String)
    (first login : AMIResponse) (frames : List AMIResponse)
    (h : first.rest ≠ "Asterisk Call Manager/1.1\r\n" ∨
         hget login.headers "Response" = none ∨
         (∃ resp, hget login.headers "Response" = some resp ∧
           resp ≠ "Success")) :
    authOutcome first login ≠ AuthResult.success ∧
    listenerRun serverName first login frames =
      (SessionState.Terminated, []) := by
  have hne : authOutcome first login ≠ AuthResult.success := by
    rcases h with h | h | ⟨resp, hr, hresp⟩
    · simp [authOutcome, h]
    · by_cases hb : first.rest = "Asterisk Call Manager/1.1\r\n" <;>
        simp [authOutcome, hb, h]
    · by_cases hb : first.rest = "Asterisk Call Manager/1.1\r\n" <;>
        simp [authOutcome, hb, hr, hresp]
  refine ⟨hne, ?_⟩
  unfold listenerRun
  cases ha : authOutcome first login <;> simp_all

/-- Witness for C7: a login reply missing the `Response` header ends the
session Terminated with nothing forwarded, even with an event frame
waiting in the stream. -/
theorem c7_auth_failure_witness :
    listenerRun "serverA" ⟨[], "Asterisk Call Manager/1.1\r\n"⟩
      ⟨[("Message", "ok")], ""⟩ [dialMsg] = (SessionState.Terminated, []) :=
  (c7_auth_failure_terminates "serverA" ⟨[], "Asterisk Call Manager/1.1\r\n"⟩
    ⟨[("Message", "ok")], ""⟩ [dialMsg] (Or.inr (Or.inl (by decide)))).2

/-- Claim C8 (code bug): the record appended for an event has exactly the
form `<source identity>::<epoch millis>::<json with a "headers" map and a
"rest" string>` followed by the line terminator, but the file it is
written to is named `events_<YYYY-MM-DD>UTC.log`, not the
`events_<YYYY-MM-DD>.log` stated by the claim and by the source's own
comment: chrono's `Display` for `Date<Utc>` appends the offset suffix
"UTC" to the naive date. -/
theorem c8_log_record_and_filename :
    get_current_file_name "2022-03-15" = "events_2022-03-15UTC.log" ∧
    get_current_file_name "2022-03-15" ≠ "events_2022-03-15.log" ∧
    logFilePath "logs" true "serverA" "2022-03-15" =
      "logs/serverA/events_2022-03-15UTC.log" ∧
    logFilePath "logs" false "serverA" "2022-03-15" =
      "logs/events_2022-03-15UTC.log" ∧
    logMsg "serverA" 1647345600000 dialMsg =
      "serverA::1647345600000::\x7b\x22headers\x22:\x7b\x22Event\x22:\x22Dial\x22,\x22Channel\x22:\x22SIP/100\x22\x7d,\x22rest\x22:\x22\x22\x7d\r\n" :=
  ⟨by decide, by decide, by decide, by decide, by decide⟩

/-- Claim C9 (code bug): duplicate database ids are NOT a fatal startup
condition.  The duplicate check compares `database.host` against a pool
map keyed by `database.id`, so two entries sharing the id "dup" pass the
check and the second pool silently overwrites the first; conversely a
configuration with pairwise distinct ids is spuriously aborted as soon as
one entry's host equals an earlier entry's id. -/
theorem c9_duplicate_id_not_fatal :
    setupPools (fun _ => true) [dbDup1, dbDup2] [] = some [("dup", "h2")] ∧
    setupPools (fun _ => true) [dbDup1, dbDup2] [] ≠ none ∧
    setupPools (fun _ => true)
      [⟨"a", "hostX", 3306, "u", "p", "d"⟩,
       ⟨"b", "a", 3306, "u", "p", "d"⟩] [] = none :=
  ⟨by decide, by decide, by decide⟩

/-- Claim C10: every pair a session forwards onto the channel carries an
`Event` header, so the aggregator's unconditional
`headers.get("Event").unwrap()` (the `none` branch of `processClause`)
never fails for a channel-delivered message. -/
theorem c10_bus_event_header_present (serverName : String)
    (first login : AMIResponse) (frames : List AMIResponse)
    (p : String × AMIResponse)
    (hp : p ∈ (listenerRun serverName first login frames).2) :
    (hget p.2.headers "Event").isSome = true := by
  unfold listenerRun at hp
  cases ha : authOutcome first login <;> rw [ha] at hp <;>
    first
      | exact mem_streamSends serverName p frames hp
      | cases hp

/-- Witness for C10 at a successful session forwarding the scenario
event. -/
theorem c10_bus_event_witness :
    (hget (("serverA", dialMsg) : String × AMIResponse).2.headers
      "Event").isSome = true :=
  c10_bus_event_header_present "serverA"
    ⟨[], "Asterisk Call Manager/1.1\r\n"⟩ ⟨[("Response", "Success")], ""⟩
    [dialMsg] ("serverA", dialMsg) (by decide)
